import Mathlib

/-!
Verification of `parse_mmseqs2_clusters.py`: a script that groups a
two-column (representative, member) TSV into clusters, sorts them, and
writes a numbered report plus a stdout summary.

Strings are modelled as `List Char` so that Python's `strip`, `split('\t')`
and lexicographic comparison can be embedded directly.
-/

namespace MMseqs2

/-- Python strings, embedded as lists of characters. -/
abbrev Str := List Char

/-- The ASCII whitespace characters removed by Python's `str.strip()`
(Unicode-only whitespace is not modelled; inputs are sequence IDs). -/
def pyIsSpace (c : Char) : Bool :=
  c == ' ' || c == '\t' || c == '\n' || c == '\r' || c == '\x0b' || c == '\x0c'

/-- `line.strip()` (line 33 of the script): remove leading and trailing
whitespace. -/
def pyStrip (s : Str) : Str :=
  ((s.dropWhile pyIsSpace).reverse.dropWhile pyIsSpace).reverse

/-- `line.split('\t')` (line 37): split on every tab; `"".split('\t') = [""]`. -/
def splitTab : Str → List Str
  | [] => [[]]
  | c :: s =>
    if c = '\t' then [] :: splitTab s
    else
      match splitTab s with
      | f :: rest => (c :: f) :: rest
      | [] => [[c]]

/-- Python string `<` (lexicographic by code point). -/
def strLt : Str → Str → Bool
  | _, [] => false
  | [], _ :: _ => true
  | a :: s, b :: t => a < b || (a == b && strLt s t)

/-- `clusters[representative].append(member)` on a `defaultdict(list)`
(line 46), with the dict modelled as an insertion-ordered association list. -/
def addMember : List (Str × List Str) → Str → Str → List (Str × List Str)
  | [], rep, mem => [(rep, [mem])]
  | (r, ms) :: rest, rep, mem =>
    if r = rep then (r, ms ++ [mem]) :: rest
    else (r, ms) :: addMember rest rep mem

/-- The warning printed for a malformed line (line 39). -/
def warnMsg (line : Str) : Str :=
  "Warning: Skipping malformed line: ".data ++ line

/-- State of the reading loop: the grouping dict and the warnings printed
so far. -/
structure ParseState where
  clusters : List (Str × List Str)
  warnings : List Str
deriving DecidableEq, Repr

/-- One iteration of the reading loop (lines 32-46): strip, skip if empty,
split on tab, warn-and-skip if fewer than 2 fields, else append
`parts[1]` to the cluster of `parts[0]`. -/
def processLine (st : ParseState) (rawLine : Str) : ParseState :=
  let line := pyStrip rawLine
  if line = [] then st
  else if (splitTab line).length < 2 then
    { st with warnings := st.warnings ++ [warnMsg line] }
  else
    { st with clusters :=
        addMember st.clusters ((splitTab line).getD 0 []) ((splitTab line).getD 1 []) }

/-- The whole reading loop over the file's lines. -/
def parseLines (ls : List Str) : ParseState :=
  ls.foldl processLine ⟨[], []⟩

/-- The sort key comparison `(-len(x[1]), x[0]) < (-len(y[1]), y[0])`
(line 57): strictly smaller key means strictly earlier in the output. -/
def keyLt (a b : Str × List Str) : Bool :=
  b.2.length < a.2.length || (a.2.length == b.2.length && strLt a.1 b.1)

/-- The non-strict comparator Python's stable sort effectively uses:
`a` may stay before `b` unless `key(b) < key(a)`. -/
def clusterLe (a b : Str × List Str) : Bool := !(keyLt b a)

/-- `clusterLe` as a decidable relation, for the sorting function. -/
abbrev clusterLeR (a b : Str × List Str) : Prop := clusterLe a b = true

/-- `sorted(clusters.items(), key=lambda x: (-len(x[1]), x[0]))` (lines
56-57), embedded as a stable sort with the comparator induced by the key;
Python's `sorted` is stable, and so is `List.insertionSort`. -/
def sortedClusters (ls : List Str) : List (Str × List Str) :=
  List.insertionSort clusterLeR (parseLines ls).clusters

/-- Member comparator for `sorted(...)` on strings. -/
def memLe (a b : Str) : Bool := !(strLt b a)

/-- `memLe` as a decidable relation, for the sorting function. -/
abbrev memLeR (a b : Str) : Prop := memLe a b = true

/-- `sorted(set(members))` (line 73): the distinct members in ascending
lexicographic order. -/
def sortedSet (ms : List Str) : List Str :=
  List.insertionSort memLeR ms.dedup

/-- One rendered cluster line of the report (line 77), kept structured:
number, reported size, representative, deduplicated sorted members. -/
structure ClusterLine where
  num : Nat
  size : Nat
  rep : Str
  members : List Str
deriving DecidableEq, Repr

/-- The report file's content, kept structured: the two header counts
(lines 64-65) and the cluster lines (lines 71-77). -/
structure Report where
  totalClusters : Nat
  totalSequences : Nat
  lines : List ClusterLine
deriving DecidableEq, Repr

/-- Build the report from the input lines: header counts from
`sorted_clusters` (note line 65 sums the RAW `len(members)`), then one
line per cluster with `sorted(set(members))` and its length as size. -/
def makeReport (ls : List Str) : Report :=
  let sc := sortedClusters ls
  { totalClusters := sc.length
    totalSequences := (sc.map fun p => p.2.length).sum
    lines := sc.enum.map fun p =>
      { num := p.1 + 1
        size := (sortedSet p.2.2).length
        rep := p.2.1
        members := sortedSet p.2.2 } }

/-- Decimal rendering of a number, as the script's f-strings produce it. -/
def natToStr (n : Nat) : Str := (Nat.repr n).data

/-- `len(sorted_clusters[0][1]) if sorted_clusters else 0` (line 86): the
raw member count of the first sorted group, guarded for emptiness. -/
def largestClusterSize (ls : List Str) : Nat :=
  match sortedClusters ls with
  | [] => 0
  | c :: _ => c.2.length

/-- The six header `f.write` payloads (lines 63-68). The format line
(line 67 of the script) contains the literal five-character text `<TAB>`
three times, not tab characters. -/
def headerWrites (r : Report) : List Str :=
  [ "# MMseqs2 Clusters\n".data,
    "# Total clusters: ".data ++ natToStr r.totalClusters ++ ['\n'],
    "# Total sequences: ".data ++ natToStr r.totalSequences ++ ['\n'],
    "#\n".data,
    "# Format: Cluster_ID<TAB>Size<TAB>Representative<TAB>Members (comma-separated)\n".data,
    "#\n".data ]

/-- The rendered text of one cluster line (line 77). -/
def renderClusterLine (cl : ClusterLine) : Str :=
  "Cluster_".data ++ natToStr cl.num ++ ['\t'] ++ natToStr cl.size ++ ['\t']
    ++ cl.rep ++ ['\t'] ++ List.intercalate [','] cl.members ++ ['\n']

/-- The full sequence of `f.write` payloads issued while writing the
report (lines 61-77), in order. -/
def reportWrites (ls : List Str) : List Str :=
  let r := makeReport ls
  headerWrites r ++ r.lines.map renderClusterLine

/-- `Error: File '<path>' not found.` (line 49). -/
def errNotFound (path : Str) : Str :=
  "Error: File '".data ++ path ++ "' not found.".data

/-- `Error reading file: <e>` (line 52). -/
def errReadMsg (cause : Str) : Str :=
  "Error reading file: ".data ++ cause

/-- `Error writing output file: <e>` (line 80). -/
def errWriteMsg (cause : Str) : Str :=
  "Error writing output file: ".data ++ cause

/-- The four summary lines printed to stdout on success (lines 84-87). -/
def summaryMsgs (ls : List Str) (outPath : Str) : List Str :=
  [ "Successfully processed ".data ++ natToStr (sortedClusters ls).length
      ++ " clusters".data,
    "Total sequences: ".data
      ++ natToStr (((sortedClusters ls).map fun p => p.2.length).sum),
    "Largest cluster size: ".data ++ natToStr (largestClusterSize ls),
    "Results written to: ".data ++ outPath ]

/-- The input file as the process sees it: missing (`FileNotFoundError`),
unreadable (any other exception while opening or reading, carrying the
exception's message), or readable with a list of lines. -/
inductive FileInput where
  | missing
  | unreadable (cause : Str)
  | content (lines : List Str)

/-- Observable outcome of one run: exit code, stdout messages in order,
and the bytes present in the output file (`none` = never created). -/
structure RunResult where
  exitCode : Nat
  stdout : List Str
  outFile : Option Str
deriving DecidableEq, Repr

/-- One run of `parse_mmseqs2_clusters` (lines 18-87). A write fault
`some (k, cause)` means the k-th `f.write` call raises with message
`cause`; the file then holds exactly the previously written payloads,
since the script opens the output in truncating `'w'` mode and writes
incrementally with no temp-file-and-rename step. -/
def runProgram (input : FileInput) (tsvPath outPath : Str)
    (fault : Option (Nat × Str)) : RunResult :=
  match input with
  | .missing =>
    { exitCode := 1, stdout := [errNotFound tsvPath], outFile := none }
  | .unreadable cause =>
    { exitCode := 1, stdout := [errReadMsg cause], outFile := none }
  | .content ls =>
    let st := parseLines ls
    let writes := reportWrites ls
    match fault with
    | some (k, cause) =>
      if k < writes.length then
        { exitCode := 1
          stdout := st.warnings ++ [errWriteMsg cause]
          outFile := some (writes.take k).flatten }
      else
        { exitCode := 0
          stdout := st.warnings ++ summaryMsgs ls outPath
          outFile := some writes.flatten }
    | none =>
      { exitCode := 0
        stdout := st.warnings ++ summaryMsgs ls outPath
        outFile := some writes.flatten }

/-- `Note: Filtering clusters with size >= <n>` (line 117). -/
def noteMsg (n : Int) : Str :=
  "Note: Filtering clusters with size >= ".data ++ (toString n).data

/-- The parsed command-line arguments (lines 106-111). -/
structure Args where
  cluster_tsv : Str
  output_file : Str
  min_size : Int

/-- `main` (lines 90-121): print the note when `--min-size > 1`, then call
`parse_mmseqs2_clusters` with the two paths only — no filtering happens. -/
def mainRun (args : Args) (input : FileInput) (fault : Option (Nat × Str)) :
    RunResult :=
  let note := if args.min_size > 1 then [noteMsg args.min_size] else []
  let r := runProgram input args.cluster_tsv args.output_file fault
  { r with stdout := note ++ r.stdout }

end MMseqs2

namespace MMseqs2

/-! ### Order lemmas for the lexicographic string comparison -/

lemma strLt_nil_right (a : Str) : strLt a [] = false := by
  cases a <;> rfl

lemma strLt_irrefl : ∀ s : Str, strLt s s = false
  | [] => rfl
  | c :: s => by
    simp [strLt, strLt_irrefl s, lt_irrefl]

lemma strLt_trans : ∀ a b c : Str, strLt a b = true → strLt b c = true →
    strLt a c = true
  | _, _, [], _, h2 => by rw [strLt_nil_right] at h2; exact absurd h2 (by simp)
  | _, [], _ :: _, h1, _ => by
    rw [strLt_nil_right] at h1; exact absurd h1 (by simp)
  | [], _ :: _, _ :: _, _, _ => by simp [strLt]
  | x :: s, y :: t, z :: u, h1, h2 => by
    simp only [strLt, Bool.or_eq_true, Bool.and_eq_true, decide_eq_true_eq,
      beq_iff_eq] at h1 h2 ⊢
    rcases h1 with h1 | ⟨rfl, h1⟩
    · rcases h2 with h2 | ⟨rfl, h2⟩
      · exact Or.inl (lt_trans h1 h2)
      · exact Or.inl h1
    · rcases h2 with h2 | ⟨rfl, h2⟩
      · exact Or.inl h2
      · exact Or.inr ⟨rfl, strLt_trans s t u h1 h2⟩

lemma strLt_asymm : ∀ a b : Str, strLt a b = true → strLt b a = false
  | a, b, h => by
    by_contra hba
    rw [Bool.not_eq_false] at hba
    have := strLt_trans a b a h hba
    rw [strLt_irrefl] at this
    exact absurd this (by simp)

lemma strLt_connex : ∀ a b : Str, strLt a b = false → strLt b a = false → a = b
  | [], [], _, _ => rfl
  | [], _ :: _, h1, _ => by simp [strLt] at h1
  | _ :: _, [], _, h2 => by simp [strLt] at h2
  | x :: s, y :: t, h1, h2 => by
    simp only [strLt, Bool.or_eq_false_iff, Bool.and_eq_false_iff,
      decide_eq_false_iff_not, beq_eq_false_iff_ne, ne_eq] at h1 h2
    obtain ⟨hxy, h1'⟩ := h1
    obtain ⟨hyx, h2'⟩ := h2
    have hxy' : x = y := le_antisymm (not_lt.mp hyx) (not_lt.mp hxy)
    subst hxy'
    rcases h1' with h1' | h1'
    · exact absurd rfl h1'
    · rcases h2' with h2' | h2'
      · exact absurd rfl h2'
      · rw [strLt_connex s t h1' h2']

lemma memLe_total (a b : Str) : memLe a b || memLe b a := by
  simp only [memLe, Bool.or_eq_true, Bool.not_eq_true']
  by_cases h : strLt b a = true
  · exact Or.inr (strLt_asymm b a h)
  · exact Or.inl (by rwa [Bool.not_eq_true] at h)

lemma memLe_trans (a b c : Str) (h1 : memLe a b) (h2 : memLe b c) :
    memLe a c := by
  simp only [memLe, Bool.not_eq_true'] at h1 h2 ⊢
  by_contra hca
  rw [Bool.not_eq_false] at hca
  by_cases hbc : strLt b c = true
  · have := strLt_trans b c a hbc hca
    rw [h1] at this; exact absurd this (by simp)
  · rw [Bool.not_eq_true] at hbc
    have hb : b = c := strLt_connex b c hbc h2
    subst hb
    rw [h1] at hca; exact absurd hca (by simp)

/-! ### Order lemmas for the composite sort key `(-len(members), rep)` -/

lemma keyLt_iff (a b : Str × List Str) :
    keyLt a b = true ↔
      b.2.length < a.2.length ∨
        (a.2.length = b.2.length ∧ strLt a.1 b.1 = true) := by
  simp [keyLt]

lemma keyLt_asymm (a b : Str × List Str) (h : keyLt a b = true) :
    keyLt b a = false := by
  by_contra hba
  rw [Bool.not_eq_false, keyLt_iff] at hba
  rw [keyLt_iff] at h
  rcases h with h | ⟨he, h⟩ <;> rcases hba with hb | ⟨he', hb⟩
  · omega
  · omega
  · omega
  · rw [strLt_asymm a.1 b.1 h] at hb; exact absurd hb (by simp)

lemma keyLt_trans (a b c : Str × List Str) (h1 : keyLt a b = true)
    (h2 : keyLt b c = true) : keyLt a c = true := by
  rw [keyLt_iff] at h1 h2 ⊢
  rcases h1 with h1 | ⟨he1, h1⟩ <;> rcases h2 with h2 | ⟨he2, h2⟩
  · exact Or.inl (by omega)
  · exact Or.inl (by omega)
  · exact Or.inl (by omega)
  · exact Or.inr ⟨by omega, strLt_trans _ _ _ h1 h2⟩

lemma keyLt_connex (a b : Str × List Str) (h1 : keyLt a b = false)
    (h2 : keyLt b a = false) : a.2.length = b.2.length ∧ a.1 = b.1 := by
  have h1' := h1; have h2' := h2
  rw [← Bool.not_eq_true, keyLt_iff] at h1' h2'
  push_neg at h1' h2'
  obtain ⟨hl1, hs1⟩ := h1'
  obtain ⟨hl2, hs2⟩ := h2'
  have he : a.2.length = b.2.length := by omega
  refine ⟨he, strLt_connex _ _ ?_ ?_⟩
  · exact Bool.eq_false_iff.mpr (hs1 he)
  · exact Bool.eq_false_iff.mpr (hs2 he.symm)

lemma clusterLe_total (a b : Str × List Str) : clusterLe a b || clusterLe b a := by
  simp only [clusterLe, Bool.or_eq_true, Bool.not_eq_true']
  by_cases h : keyLt b a = true
  · exact Or.inr (keyLt_asymm b a h)
  · exact Or.inl (by rwa [Bool.not_eq_true] at h)

lemma clusterLe_trans (a b c : Str × List Str) (h1 : clusterLe a b)
    (h2 : clusterLe b c) : clusterLe a c := by
  simp only [clusterLe, Bool.not_eq_true'] at h1 h2 ⊢
  by_contra hca
  rw [Bool.not_eq_false] at hca
  by_cases hcb : keyLt c b = true
  · rw [hcb] at h2; exact absurd h2 (by simp)
  · rw [Bool.not_eq_true] at hcb
    by_cases hbc : keyLt b c = true
    · have := keyLt_trans b c a hbc hca
      rw [h1] at this; exact absurd this (by simp)
    · rw [Bool.not_eq_true] at hbc
      obtain ⟨hlen, hfst⟩ := keyLt_connex b c hbc hcb
      rw [keyLt_iff] at hca
      rw [← hfst] at hca
      have : keyLt b a = true := by
        rw [keyLt_iff]
        rcases hca with h | ⟨he, h⟩
        · exact Or.inl (by omega)
        · exact Or.inr ⟨by omega, h⟩
      rw [h1] at this; exact absurd this (by simp)

end MMseqs2

namespace MMseqs2

/-! ### Structure of the reading loop -/

/-- The clusters-only effect of one loop iteration. -/
def stepClusters (cs : List (Str × List Str)) (rawLine : Str) :
    List (Str × List Str) :=
  let line := pyStrip rawLine
  if line = [] then cs
  else if (splitTab line).length < 2 then cs
  else addMember cs ((splitTab line).getD 0 []) ((splitTab line).getD 1 [])

/-- The warnings contributed by one loop iteration. -/
def lineWarn (rawLine : Str) : List Str :=
  let line := pyStrip rawLine
  if line = [] then []
  else if (splitTab line).length < 2 then [warnMsg line]
  else []

lemma processLine_clusters (st : ParseState) (raw : Str) :
    (processLine st raw).clusters = stepClusters st.clusters raw := by
  simp only [processLine, stepClusters]
  split
  · rfl
  · split <;> rfl

lemma processLine_warnings (st : ParseState) (raw : Str) :
    (processLine st raw).warnings = st.warnings ++ lineWarn raw := by
  simp only [processLine, lineWarn]
  split
  · simp
  · split <;> simp

lemma foldl_processLine_clusters : ∀ (ls : List Str) (st : ParseState),
    (ls.foldl processLine st).clusters = ls.foldl stepClusters st.clusters
  | [], _ => rfl
  | l :: ls, st => by
    rw [List.foldl_cons, List.foldl_cons, foldl_processLine_clusters ls,
      processLine_clusters]

lemma foldl_processLine_warnings : ∀ (ls : List Str) (st : ParseState),
    (ls.foldl processLine st).warnings = st.warnings ++ (ls.map lineWarn).flatten
  | [], st => by simp
  | l :: ls, st => by
    rw [List.foldl_cons, foldl_processLine_warnings ls, processLine_warnings]
    simp

lemma parseLines_clusters (ls : List Str) :
    (parseLines ls).clusters = ls.foldl stepClusters [] :=
  foldl_processLine_clusters ls ⟨[], []⟩

lemma parseLines_warnings (ls : List Str) :
    (parseLines ls).warnings = (ls.map lineWarn).flatten :=
  foldl_processLine_warnings ls ⟨[], []⟩

/-! ### The grouping dict keeps one entry per representative -/

lemma mem_addMember_keys : ∀ (cs : List (Str × List Str)) (rep mem x : Str),
    x ∈ (addMember cs rep mem).map Prod.fst →
      x ∈ cs.map Prod.fst ∨ x = rep
  | [], rep, mem, x, h => by
    simp only [addMember, List.map_cons, List.map_nil, List.mem_singleton] at h
    exact Or.inr h
  | (r, ms) :: rest, rep, mem, x, h => by
    simp only [addMember] at h
    split at h
    · simp only [List.map_cons, List.mem_cons] at h ⊢
      tauto
    · simp only [List.map_cons, List.mem_cons] at h ⊢
      rcases h with h | h
      · exact Or.inl (Or.inl h)
      · rcases mem_addMember_keys rest rep mem x h with h' | h'
        · exact Or.inl (Or.inr h')
        · exact Or.inr h'

lemma addMember_keys_nodup : ∀ (cs : List (Str × List Str)) (rep mem : Str),
    (cs.map Prod.fst).Nodup → ((addMember cs rep mem).map Prod.fst).Nodup
  | [], rep, mem, _ => by simp [addMember]
  | (r, ms) :: rest, rep, mem, h => by
    simp only [List.map_cons, List.nodup_cons] at h
    obtain ⟨hr, hrest⟩ := h
    simp only [addMember]
    split
    · simp only [List.map_cons, List.nodup_cons]
      exact ⟨hr, hrest⟩
    · rename_i hne
      simp only [List.map_cons, List.nodup_cons]
      refine ⟨fun hmem => ?_, addMember_keys_nodup rest rep mem hrest⟩
      rcases mem_addMember_keys rest rep mem r hmem with h' | h'
      · exact hr h'
      · exact hne h'

lemma stepClusters_keys_nodup (cs : List (Str × List Str)) (raw : Str)
    (h : (cs.map Prod.fst).Nodup) :
    ((stepClusters cs raw).map Prod.fst).Nodup := by
  simp only [stepClusters]
  split
  · exact h
  · split
    · exact h
    · exact addMember_keys_nodup _ _ _ h

lemma foldl_stepClusters_keys_nodup : ∀ (ls : List Str)
    (cs : List (Str × List Str)), (cs.map Prod.fst).Nodup →
    ((ls.foldl stepClusters cs).map Prod.fst).Nodup
  | [], _, h => h
  | l :: ls, cs, h =>
    foldl_stepClusters_keys_nodup ls _ (stepClusters_keys_nodup cs l h)

/-- The representatives in the grouping dict are pairwise distinct. -/
lemma parseLines_keys_nodup (ls : List Str) :
    ((parseLines ls).clusters.map Prod.fst).Nodup := by
  rw [parseLines_clusters]
  exact foldl_stepClusters_keys_nodup ls [] (by simp)

end MMseqs2

namespace MMseqs2

/-! ### Consequences of sorting by permutation and by the comparators -/

instance : IsTotal (Str × List Str) clusterLeR :=
  ⟨fun a b => by
    have := clusterLe_total a b
    rcases Bool.or_eq_true_iff.mp this with h | h
    · exact Or.inl h
    · exact Or.inr h⟩

instance : IsTrans (Str × List Str) clusterLeR :=
  ⟨fun a b c => clusterLe_trans a b c⟩

instance : IsTotal Str memLeR :=
  ⟨fun a b => by
    have := memLe_total a b
    rcases Bool.or_eq_true_iff.mp this with h | h
    · exact Or.inl h
    · exact Or.inr h⟩

instance : IsTrans Str memLeR :=
  ⟨fun a b c => memLe_trans a b c⟩

lemma sortedClusters_perm (ls : List Str) :
    List.Perm (sortedClusters ls) (parseLines ls).clusters :=
  List.perm_insertionSort _ _

lemma sortedClusters_pairwise_le (ls : List Str) :
    (sortedClusters ls).Pairwise (fun a b => clusterLe a b = true) :=
  List.sorted_insertionSort _ _

lemma sortedClusters_keys_nodup (ls : List Str) :
    ((sortedClusters ls).map Prod.fst).Nodup :=
  ((sortedClusters_perm ls).map Prod.fst).nodup_iff.mpr (parseLines_keys_nodup ls)

/-- In the sorted cluster list, each pair of entries is strictly ordered by
the composite key: later entries have strictly smaller keys. -/
lemma sortedClusters_pairwise_keyLt (ls : List Str) :
    (sortedClusters ls).Pairwise (fun a b => keyLt a b = true) := by
  have hle := sortedClusters_pairwise_le ls
  have hne : (sortedClusters ls).Pairwise (fun a b => a.1 ≠ b.1) := by
    have h := sortedClusters_keys_nodup ls
    exact List.pairwise_map.mp h
  refine (hle.and hne).imp ?_
  rintro a b ⟨hab, hne'⟩
  simp only [clusterLe, Bool.not_eq_true'] at hab
  by_cases h : keyLt a b = true
  · exact h
  · rw [Bool.not_eq_true] at h
    exact absurd (keyLt_connex a b h hab).2 hne'

lemma sortedSet_perm (ms : List Str) : List.Perm (sortedSet ms) ms.dedup :=
  List.perm_insertionSort _ _

lemma sortedSet_nodup (ms : List Str) : (sortedSet ms).Nodup :=
  (sortedSet_perm ms).nodup_iff.mpr (List.nodup_dedup ms)

lemma sortedSet_pairwise_memLe (ms : List Str) :
    (sortedSet ms).Pairwise (fun a b => memLe a b = true) :=
  List.sorted_insertionSort _ _

/-- `sorted(set(members))` is strictly increasing lexicographically. -/
lemma sortedSet_pairwise_strLt (ms : List Str) :
    (sortedSet ms).Pairwise (fun a b => strLt a b = true) := by
  have h1 := sortedSet_pairwise_memLe ms
  have h2 : (sortedSet ms).Pairwise (fun a b => a ≠ b) := sortedSet_nodup ms
  refine (h1.and h2).imp ?_
  rintro a b ⟨hab, hne⟩
  simp only [memLe, Bool.not_eq_true'] at hab
  by_cases h : strLt a b = true
  · exact h
  · rw [Bool.not_eq_true] at h
    exact absurd (strLt_connex a b h hab) hne

lemma sortedSet_mem (ms : List Str) (x : Str) :
    x ∈ sortedSet ms ↔ x ∈ ms := by
  rw [(sortedSet_perm ms).mem_iff, List.mem_dedup]

/-! ### Shape of the report -/

lemma report_lines_eq (ls : List Str) :
    (makeReport ls).lines = (sortedClusters ls).enum.map fun p =>
      { num := p.1 + 1
        size := (sortedSet p.2.2).length
        rep := p.2.1
        members := sortedSet p.2.2 } :=
  rfl

lemma report_lines_map_rep (ls : List Str) :
    (makeReport ls).lines.map (fun cl => cl.rep)
      = (sortedClusters ls).map Prod.fst := by
  rw [report_lines_eq, List.map_map]
  have : ((fun cl : ClusterLine => cl.rep) ∘ fun p : Nat × (Str × List Str) =>
      ({ num := p.1 + 1, size := (sortedSet p.2.2).length, rep := p.2.1,
         members := sortedSet p.2.2 } : ClusterLine))
      = Prod.fst ∘ Prod.snd := rfl
  rw [this, ← List.map_map, List.enum_map_snd]

lemma report_lines_map_size (ls : List Str) :
    (makeReport ls).lines.map (fun cl => cl.size)
      = (sortedClusters ls).map fun g => (sortedSet g.2).length := by
  rw [report_lines_eq, List.map_map]
  have : ((fun cl : ClusterLine => cl.size) ∘ fun p : Nat × (Str × List Str) =>
      ({ num := p.1 + 1, size := (sortedSet p.2.2).length, rep := p.2.1,
         members := sortedSet p.2.2 } : ClusterLine))
      = (fun g : Str × List Str => (sortedSet g.2).length) ∘ Prod.snd := rfl
  rw [this, ← List.map_map, List.enum_map_snd]

lemma sortedSet_length_eq_dedup (ms : List Str) :
    (sortedSet ms).length = ms.dedup.length :=
  (sortedSet_perm ms).length_eq

/-- The header's "Total sequences" count is the sum of the RAW member
counts of the groups (line 65 of the script). -/
lemma totalSequences_eq_raw_sum (ls : List Str) :
    (makeReport ls).totalSequences
      = (((parseLines ls).clusters.map fun p => p.2.length)).sum := by
  simp only [makeReport]
  exact ((sortedClusters_perm ls).map fun p => p.2.length).sum_eq

/-- The sum of the sizes on the cluster lines is the sum of the
deduplicated member counts of the groups. -/
lemma sizes_sum_eq_dedup_sum (ls : List Str) :
    ((makeReport ls).lines.map (fun cl => cl.size)).sum
      = (((parseLines ls).clusters.map fun p => p.2.dedup.length)).sum := by
  rw [report_lines_map_size]
  have h : ((sortedClusters ls).map fun g => (sortedSet g.2).length)
      = (sortedClusters ls).map fun g => g.2.dedup.length := by
    apply List.map_congr_left
    intro g _
    exact sortedSet_length_eq_dedup g.2
  rw [h]
  exact ((sortedClusters_perm ls).map fun g => g.2.dedup.length).sum_eq

end MMseqs2

namespace MMseqs2

/-! ### Malformed lines and stripping -/

lemma stepClusters_malformed {l : Str} (h1 : pyStrip l ≠ [])
    (h2 : (splitTab (pyStrip l)).length < 2) (cs : List (Str × List Str)) :
    stepClusters cs l = cs := by
  simp only [stepClusters]
  rw [if_neg h1, if_pos h2]

lemma lineWarn_malformed {l : Str} (h1 : pyStrip l ≠ [])
    (h2 : (splitTab (pyStrip l)).length < 2) :
    lineWarn l = [warnMsg (pyStrip l)] := by
  simp only [lineWarn]
  rw [if_neg h1, if_pos h2]

lemma dropWhile_pyIsSpace_of_forall {l : Str}
    (h : ∀ c ∈ l, pyIsSpace c = false) : l.dropWhile pyIsSpace = l := by
  cases l with
  | nil => rfl
  | cons c t =>
    rw [List.dropWhile_cons, if_neg]
    rw [h c (List.mem_cons_self c t)]
    simp

lemma pyStrip_of_no_space {s : Str} (h : ∀ c ∈ s, pyIsSpace c = false) :
    pyStrip s = s := by
  unfold pyStrip
  rw [dropWhile_pyIsSpace_of_forall h]
  rw [dropWhile_pyIsSpace_of_forall (by
    intro c hc
    exact h c (List.mem_reverse.mp hc))]
  exact List.reverse_reverse s

lemma pyIsSpace_tab : pyIsSpace '\t' = true := rfl

lemma pyStrip_tab_cons {s : Str} (h : ∀ c ∈ s, pyIsSpace c = false) :
    pyStrip ('\t' :: s) = s := by
  unfold pyStrip
  rw [List.dropWhile_cons, if_pos (by simp [pyIsSpace_tab])]
  rw [dropWhile_pyIsSpace_of_forall h]
  rw [dropWhile_pyIsSpace_of_forall (by
    intro c hc
    exact h c (List.mem_reverse.mp hc))]
  exact List.reverse_reverse s

lemma pyStrip_append_tab {s : Str} (hne : s ≠ [])
    (h : ∀ c ∈ s, pyIsSpace c = false) :
    pyStrip (s ++ ['\t']) = s := by
  unfold pyStrip
  have hd : (s ++ ['\t']).dropWhile pyIsSpace = s ++ ['\t'] := by
    cases s with
    | nil => exact absurd rfl hne
    | cons c t =>
      rw [List.cons_append, List.dropWhile_cons, if_neg]
      rw [h c (List.mem_cons_self c t)]
      simp
  rw [hd, List.reverse_append]
  simp only [List.reverse_cons, List.reverse_nil, List.nil_append,
    List.singleton_append]
  rw [List.dropWhile_cons, if_pos (by simp [pyIsSpace_tab])]
  rw [dropWhile_pyIsSpace_of_forall (by
    intro c hc
    exact h c (List.mem_reverse.mp hc))]
  exact List.reverse_reverse s

lemma splitTab_no_tab : ∀ {s : Str}, (∀ c ∈ s, c ≠ '\t') → splitTab s = [s]
  | [], _ => rfl
  | c :: s, h => by
    have hs := splitTab_no_tab (fun d hd => h d (List.mem_cons_of_mem c hd))
    simp only [splitTab, hs]
    rw [if_neg (h c (List.mem_cons_self c s))]

/-- A string with no whitespace characters contains no tab. -/
lemma no_tab_of_no_space {s : Str} (h : ∀ c ∈ s, pyIsSpace c = false) :
    ∀ c ∈ s, c ≠ '\t' := by
  intro c hc he
  subst he
  have := h _ hc
  rw [pyIsSpace_tab] at this
  exact absurd this (by simp)

/-! ### Replacing the input by the same input without a malformed line -/

lemma parseLines_clusters_erase_malformed (pre suf : List Str) {l : Str}
    (h1 : pyStrip l ≠ []) (h2 : (splitTab (pyStrip l)).length < 2) :
    (parseLines (pre ++ l :: suf)).clusters = (parseLines (pre ++ suf)).clusters := by
  rw [parseLines_clusters, parseLines_clusters, List.foldl_append,
    List.foldl_append, List.foldl_cons, stepClusters_malformed h1 h2]

lemma makeReport_congr {L1 L2 : List Str}
    (h : (parseLines L1).clusters = (parseLines L2).clusters) :
    makeReport L1 = makeReport L2 := by
  simp only [makeReport, sortedClusters, h]

lemma summaryMsgs_congr {L1 L2 : List Str} (out : Str)
    (h : (parseLines L1).clusters = (parseLines L2).clusters) :
    summaryMsgs L1 out = summaryMsgs L2 out := by
  simp only [summaryMsgs, largestClusterSize, sortedClusters, h]

/-! ### Truncation: flattening a prefix of the writes -/

lemma flatten_take_prefix (ws : List Str) (k : Nat) :
    (ws.take k).flatten <+: ws.flatten := by
  refine ⟨(ws.drop k).flatten, ?_⟩
  rw [← List.flatten_append, List.take_append_drop]

end MMseqs2

namespace MMseqs2

/-! ### Example inputs -/

/-- Example input: the record `A\tB` duplicated. -/
def exDup : List Str := ["A\tB".data, "A\tB".data]

/-- Example input: group `Z` has raw count 3 but deduplicated size 1,
group `A` has raw count 2 and deduplicated size 2, so the raw-count sort
puts the smaller deduplicated cluster first. -/
def exRawOrder : List Str :=
  ["Z\tB".data, "Z\tB".data, "Z\tB".data, "A\tC".data, "A\tD".data]

/-! ### C1 -/

/-- C1, as stated, is false: on the input consisting of `A\tB` twice, the
"Total sequences" header value is 2 (the raw count), while both the sum of
deduplicated member counts and the sum of the reported cluster sizes are 1. -/
theorem c1_counterexample :
    ¬ ((makeReport exDup).totalSequences
          = (((parseLines exDup).clusters.map fun p => p.2.dedup.length)).sum
        ∧ (makeReport exDup).totalSequences
          = ((makeReport exDup).lines.map (fun cl => cl.size)).sum) := by
  decide

/-- C1 (amended): the "Total sequences" header value equals the sum over
all groups of the RAW (pre-deduplication) member counts, while the sum of
the per-cluster reported sizes equals the sum of the deduplicated member
counts across all groups. -/
theorem c1_total_sequences_amended (ls : List Str) :
    (makeReport ls).totalSequences
        = (((parseLines ls).clusters.map fun p => p.2.length)).sum
      ∧ ((makeReport ls).lines.map (fun cl => cl.size)).sum
        = (((parseLines ls).clusters.map fun p => p.2.dedup.length)).sum :=
  ⟨totalSequences_eq_raw_sum ls, sizes_sum_eq_dedup_sum ls⟩

/-! ### C2 -/

/-- C2, as stated, is false: on `exRawOrder` the output lines appear with
deduplicated sizes `[1, 2]`, which is not ordered by descending
deduplicated size (the sort key uses the raw member count). -/
theorem c2_counterexample :
    ¬ ((makeReport exRawOrder).lines.Pairwise (fun a b =>
        b.size < a.size ∨ (a.size = b.size ∧ strLt a.rep b.rep = true))) := by
  decide

/-- C2 (amended): the output cluster lines follow the order of
`sorted_clusters`, which is ordered primarily by descending RAW
(pre-deduplication) member count, with ties broken by ascending
lexicographic representative order. -/
theorem c2_order_amended (ls : List Str) :
    (makeReport ls).lines.map (fun cl => cl.rep)
        = (sortedClusters ls).map Prod.fst
      ∧ (sortedClusters ls).Pairwise (fun a b =>
          b.2.length < a.2.length
            ∨ (a.2.length = b.2.length ∧ strLt a.1 b.1 = true)) :=
  ⟨report_lines_map_rep ls,
    (sortedClusters_pairwise_keyLt ls).imp fun h => (keyLt_iff _ _).mp h⟩

end MMseqs2

namespace MMseqs2

/-! ### C3 -/

/-- C3: the "Largest cluster size" figure printed in the run summary is
the raw pre-deduplication member count of the first group in sorted order
(the summary's third line renders exactly that number), and there is an
input on which it differs from that cluster's reported deduplicated size. -/
theorem c3_largest_is_raw (ls : List Str) (c : Str × List Str)
    (rest : List (Str × List Str)) (out : Str)
    (h : sortedClusters ls = c :: rest) :
    largestClusterSize ls = c.2.length
      ∧ (summaryMsgs ls out).getD 2 []
          = "Largest cluster size: ".data ++ natToStr c.2.length
      ∧ ∃ ls' cl rest', (makeReport ls').lines = cl :: rest'
          ∧ largestClusterSize ls' ≠ cl.size := by
  refine ⟨?_, ?_, ?_⟩
  · rw [largestClusterSize, h]
  · simp only [summaryMsgs, largestClusterSize, h, List.getD]
    rfl
  · exact ⟨exDup, ⟨1, 1, ['A'], [['B']]⟩, [], by decide, by decide⟩

/-- C3 witness: on the duplicated-record input, the summary's largest
cluster size is the raw count 2 even though the only cluster line reports
deduplicated size 1. -/
theorem c3_witness :
    largestClusterSize exDup = 2
      ∧ (summaryMsgs exDup ['o']).getD 2 []
          = "Largest cluster size: ".data ++ natToStr 2
      ∧ ∃ ls' cl rest', (makeReport ls').lines = cl :: rest'
          ∧ largestClusterSize ls' ≠ cl.size :=
  c3_largest_is_raw exDup (['A'], [['B'], ['B']]) [] ['o'] (by decide)

/-! ### C7 -/

/-- C7: every output cluster line lists pairwise-distinct members in
strictly ascending lexicographic order, and its reported size is the
number of distinct members of its group (a permutation of the group's
deduplicated raw member list), not the raw append count. -/
theorem c7_members_dedup_sorted (ls : List Str) (cl : ClusterLine)
    (h : cl ∈ (makeReport ls).lines) :
    cl.members.Nodup
      ∧ cl.members.Pairwise (fun a b => strLt a b = true)
      ∧ cl.size = cl.members.length
      ∧ ∃ g ∈ (parseLines ls).clusters, cl.rep = g.1
          ∧ List.Perm cl.members g.2.dedup := by
  rw [report_lines_eq] at h
  obtain ⟨p, hp, rfl⟩ := List.mem_map.mp h
  have hg : p.2 ∈ sortedClusters ls := by
    have := List.mem_map_of_mem Prod.snd hp
    rwa [List.enum_map_snd] at this
  refine ⟨sortedSet_nodup _, sortedSet_pairwise_strLt _, rfl, p.2, ?_, rfl,
    sortedSet_perm _⟩
  exact (sortedClusters_perm ls).mem_iff.mp hg

/-- C7 witness: the single line of the duplicated-record input's report
has distinct sorted members `[B]`, reported size 1, for the group
`A ↦ [B, B]` whose deduplicated member list is `[B]`. -/
theorem c7_witness :
    ([['B']] : List Str).Nodup
      ∧ ([['B']] : List Str).Pairwise (fun a b => strLt a b = true)
      ∧ 1 = ([['B']] : List Str).length
      ∧ ∃ g ∈ (parseLines exDup).clusters, ['A'] = g.1
          ∧ List.Perm ([['B']] : List Str) g.2.dedup :=
  c7_members_dedup_sorted exDup ⟨1, 1, ['A'], [['B']]⟩ (by decide)

end MMseqs2

namespace MMseqs2

/-! ### C4 -/

/-- C4, as stated, is false: failing the fourth write on the
duplicated-record input exits nonzero, but leaves the output file holding
a nonempty proper prefix of the full report - a truncated file. -/
theorem c4_counterexample :
    (runProgram (.content exDup) ['t'] ['o'] (some (3, ['d']))).exitCode = 1
      ∧ (runProgram (.content exDup) ['t'] ['o'] (some (3, ['d']))).outFile
          = some ((reportWrites exDup).take 3).flatten
      ∧ ((reportWrites exDup).take 3).flatten ≠ []
      ∧ ((reportWrites exDup).take 3).flatten ≠ (reportWrites exDup).flatten
      ∧ ((reportWrites exDup).take 3).flatten <+: (reportWrites exDup).flatten :=
  ⟨by decide, by decide, by decide, by decide, flatten_take_prefix _ _⟩

/-- C4 (amended): if the k-th report write fails, the process exits
nonzero after printing the underlying cause, but the output file is left
holding exactly the already-written payloads - a prefix of the full
report, so a partially written (truncated) file can remain. -/
theorem c4_write_failure_amended (ls : List Str) (tsv out cause : Str)
    (k : Nat) (hk : k < (reportWrites ls).length) :
    (runProgram (.content ls) tsv out (some (k, cause))).exitCode = 1
      ∧ errWriteMsg cause
          ∈ (runProgram (.content ls) tsv out (some (k, cause))).stdout
      ∧ (runProgram (.content ls) tsv out (some (k, cause))).outFile
          = some ((reportWrites ls).take k).flatten
      ∧ ((reportWrites ls).take k).flatten <+: (reportWrites ls).flatten := by
  simp only [runProgram, if_pos hk]
  exact ⟨by simp, by simp, by simp, flatten_take_prefix _ _⟩

/-- C4 witness: failing the second write on the duplicated-record input. -/
theorem c4_witness :
    (runProgram (.content exDup) ['t'] ['o'] (some (1, ['d']))).exitCode = 1
      ∧ errWriteMsg ['d']
          ∈ (runProgram (.content exDup) ['t'] ['o'] (some (1, ['d']))).stdout
      ∧ (runProgram (.content exDup) ['t'] ['o'] (some (1, ['d']))).outFile
          = some ((reportWrites exDup).take 1).flatten
      ∧ ((reportWrites exDup).take 1).flatten <+: (reportWrites exDup).flatten :=
  c4_write_failure_amended exDup ['t'] ['o'] ['d'] 1 (by decide)

/-! ### C5 -/

/-- C5: a line that is non-empty after stripping but splits into fewer
than 2 tab-separated fields is warned about (the warning message ends
with the offending stripped line) and skipped: the report and the summary
are exactly those of the input with the line removed, so nothing from the
line appears anywhere in the output. -/
theorem c5_malformed_skipped (pre suf : List Str) (l out : Str)
    (h1 : pyStrip l ≠ []) (h2 : (splitTab (pyStrip l)).length < 2) :
    makeReport (pre ++ l :: suf) = makeReport (pre ++ suf)
      ∧ summaryMsgs (pre ++ l :: suf) out = summaryMsgs (pre ++ suf) out
      ∧ warnMsg (pyStrip l) ∈ (parseLines (pre ++ l :: suf)).warnings
      ∧ pyStrip l <:+ warnMsg (pyStrip l) := by
  have hc := parseLines_clusters_erase_malformed pre suf h1 h2
  refine ⟨makeReport_congr hc, summaryMsgs_congr out hc, ?_, ?_⟩
  · rw [parseLines_warnings]
    apply List.mem_flatten.mpr
    refine ⟨[warnMsg (pyStrip l)], ?_, by simp⟩
    rw [← lineWarn_malformed h1 h2]
    exact List.mem_map_of_mem lineWarn (by simp)
  · exact ⟨"Warning: Skipping malformed line: ".data, rfl⟩

/-- The malformed line of the spec's scenario. -/
def lineJust : Str := "justonefield".data

/-- A single well-formed record line `A\tB`. -/
def lineAB : Str := "A\tB".data

/-- C5 witness: the spec's scenario `justonefield` followed by `A\tB`. -/
theorem c5_witness :
    makeReport ([] ++ lineJust :: [lineAB]) = makeReport ([] ++ [lineAB])
      ∧ summaryMsgs ([] ++ lineJust :: [lineAB]) ['o']
          = summaryMsgs ([] ++ [lineAB]) ['o']
      ∧ warnMsg (pyStrip lineJust)
          ∈ (parseLines ([] ++ lineJust :: [lineAB])).warnings
      ∧ pyStrip lineJust <:+ warnMsg (pyStrip lineJust) :=
  c5_malformed_skipped [] [lineAB] lineJust ['o'] (by decide) (by decide)

/-! ### C6 -/

/-- C6: on a missing input file the process prints exactly one error
message, which contains the input path, exits with status 1, and the
output file is never created or modified; on an input that exists but
cannot be read (any other exception while opening or reading, lines
51-53), it prints `Error reading file: <e>` and exits with status 1,
again never touching the output file. The exception text of a failed
read is the OS error message, which names the offending path
(hypothesis `hcause`), so that printed message also names the path. -/
theorem c6_input_error (tsv out cause : Str) (fault : Option (Nat × Str))
    (hcause : tsv <:+: cause) :
    runProgram .missing tsv out fault = ⟨1, [errNotFound tsv], none⟩
      ∧ tsv <:+: errNotFound tsv
      ∧ runProgram (.unreadable cause) tsv out fault
          = ⟨1, [errReadMsg cause], none⟩
      ∧ tsv <:+: errReadMsg cause := by
  refine ⟨rfl, ⟨"Error: File '".data, "' not found.".data, by simp [errNotFound]⟩,
    rfl, ?_⟩
  obtain ⟨s, t, rfl⟩ := hcause
  exact ⟨"Error reading file: ".data ++ s, t, by simp [errReadMsg]⟩

/-- C6 witness: path `t`, and an unreadable input whose OS error message
`denied: t` names that path. -/
theorem c6_witness :
    runProgram .missing ['t'] ['o'] none = ⟨1, [errNotFound ['t']], none⟩
      ∧ ['t'] <:+: errNotFound ['t']
      ∧ runProgram (.unreadable ("denied: t".data)) ['t'] ['o'] none
          = ⟨1, [errReadMsg ("denied: t".data)], none⟩
      ∧ ['t'] <:+: errReadMsg ("denied: t".data) :=
  c6_input_error ['t'] ['o'] ("denied: t".data) none (by decide)

end MMseqs2

namespace MMseqs2

/-! ### C8 -/

/-- C8: for every `--min-size` value N, the run writes the same output
file and exits with the same code as the default N = 1; only stdout gains
the note line when N > 1. No filtering happens, so all cluster and
sequence counts in the file and summary are unchanged. -/
theorem c8_min_size_noop (tsv out : Str) (n : Int) (input : FileInput)
    (fault : Option (Nat × Str)) :
    (mainRun ⟨tsv, out, n⟩ input fault).outFile
        = (mainRun ⟨tsv, out, 1⟩ input fault).outFile
      ∧ (mainRun ⟨tsv, out, n⟩ input fault).exitCode
          = (mainRun ⟨tsv, out, 1⟩ input fault).exitCode
      ∧ (mainRun ⟨tsv, out, n⟩ input fault).stdout
          = (if n > 1 then [noteMsg n] else [])
              ++ (mainRun ⟨tsv, out, 1⟩ input fault).stdout := by
  refine ⟨rfl, rfl, ?_⟩
  simp [mainRun]

/-! ### C9 -/

/-- C9: a line made of one tab-free, whitespace-free field with a tab at
either edge loses that tab to stripping, is classified as malformed
(fewer than 2 fields), is skipped with a warning, and contributes nothing
to any cluster - in particular no empty-string representative or member
enters a cluster from it. -/
theorem c9_edge_tab_malformed (st : ParseState) (s : Str) (hne : s ≠ [])
    (hsp : ∀ c ∈ s, pyIsSpace c = false) :
    processLine st ('\t' :: s)
        = { st with warnings := st.warnings ++ [warnMsg s] }
      ∧ processLine st (s ++ ['\t'])
          = { st with warnings := st.warnings ++ [warnMsg s] }
      ∧ (processLine st ('\t' :: s)).clusters = st.clusters
      ∧ (processLine st (s ++ ['\t'])).clusters = st.clusters := by
  have htab := no_tab_of_no_space hsp
  have hsplit : splitTab s = [s] := splitTab_no_tab htab
  have h1 : pyStrip ('\t' :: s) = s := pyStrip_tab_cons hsp
  have h2 : pyStrip (s ++ ['\t']) = s := pyStrip_append_tab hne hsp
  have hlen : (splitTab s).length < 2 := by rw [hsplit]; simp
  have e1 : processLine st ('\t' :: s)
      = { st with warnings := st.warnings ++ [warnMsg s] } := by
    simp only [processLine, h1]
    rw [if_neg hne, if_pos hlen]
  have e2 : processLine st (s ++ ['\t'])
      = { st with warnings := st.warnings ++ [warnMsg s] } := by
    simp only [processLine, h2]
    rw [if_neg hne, if_pos hlen]
  exact ⟨e1, e2, by rw [e1], by rw [e2]⟩

/-- C9 witness: the lines `\tB` and `B\t` on the empty starting state. -/
theorem c9_witness :
    processLine ⟨[], []⟩ ('\t' :: ['B']) = ⟨[], [] ++ [warnMsg ['B']]⟩
      ∧ processLine ⟨[], []⟩ (['B'] ++ ['\t']) = ⟨[], [] ++ [warnMsg ['B']]⟩
      ∧ (processLine ⟨[], []⟩ ('\t' :: ['B'])).clusters = []
      ∧ (processLine ⟨[], []⟩ (['B'] ++ ['\t'])).clusters = [] :=
  c9_edge_tab_malformed ⟨[], []⟩ ['B'] (by decide) (by decide)

/-! ### C10 -/

/-- C10: when no clusters were parsed (e.g. the empty input file), the
guard in the summary line yields 0 instead of indexing into the empty
sorted cluster list, the summary renders "Largest cluster size: 0", and
the run completes with exit code 0. -/
theorem c10_empty_guarded (ls : List Str) (tsv out : Str)
    (h : (parseLines ls).clusters = []) :
    largestClusterSize ls = 0
      ∧ (summaryMsgs ls out).getD 2 []
          = "Largest cluster size: ".data ++ natToStr 0
      ∧ (runProgram (.content ls) tsv out none).exitCode = 0 := by
  have hsc : sortedClusters ls = [] := by
    rw [sortedClusters, h]
    rfl
  refine ⟨?_, ?_, ?_⟩
  · rw [largestClusterSize, hsc]
  · simp only [summaryMsgs, largestClusterSize, hsc, List.getD]
    rfl
  · simp [runProgram]

/-- C10 witness: the empty input file. -/
theorem c10_witness :
    largestClusterSize [] = 0
      ∧ (summaryMsgs [] ['o']).getD 2 []
          = "Largest cluster size: ".data ++ natToStr 0
      ∧ (runProgram (.content []) ['t'] ['o'] none).exitCode = 0 :=
  c10_empty_guarded [] ['t'] ['o'] (by decide)

end MMseqs2
